import Mathlib

/-
Verification of the war-tracking bot (src/main.py) against its
natural-language specification.  Each Python function relevant to the
claims is shallowly embedded as a Lean definition over explicit data:
Python dicts become structures or association lists, JSON numbers become
rationals, machine timestamps become integers, and raised exceptions
become Except values.
-/

namespace WarBot

/- ====================================================================
   Attack scoring: calculate_attack_points (src/main.py lines 1566-1612)
   ==================================================================== -/

/-- The value found under the result key of an attack payload: either a
plain string outcome, a nested dict carrying a respect value, or some
other dict without a respect key. -/
inductive ResultField where
  | str (s : String)
  | dictWithRespect (q : ℚ)
  | dictOther
deriving DecidableEq, Repr

/-- An attack payload as consumed by calculate_attack_points: the three
field-name variants the function inspects, each possibly absent. -/
structure Attack where
  respect_gain : Option ℚ
  respect : Option ℚ
  result : Option ResultField
deriving DecidableEq, Repr

/-- The outcome strings the source treats as successful (line 1606). -/
def successful_results : List String :=
  ["Mugged", "Hospitalized", "Attacked", "Stalemate", "Assist", "Success"]

/-- Embedding of calculate_attack_points (lines 1566-1612): read respect
from respect_gain, else respect; a dict-valued result with a nested
respect overrides both and forces the outcome Success; award the respect
value when positive, else 1.0 for a successful outcome, else 0.0. -/
def calculate_attack_points (attack : Attack) : ℚ :=
  let respect0 : ℚ :=
    match attack.respect_gain with
    | some r => r
    | none =>
      match attack.respect with
      | some r => r
      | none => 0
  let rr : ℚ × Option ResultField :=
    match attack.result with
    | some (ResultField.dictWithRespect q) => (q, some (ResultField.str "Success"))
    | some rf => (respect0, some rf)
    | none => (respect0, none)
  if rr.1 > 0 then rr.1
  else
    match rr.2 with
    | some (ResultField.str s) => if s ∈ successful_results then 1 else 0
    | _ => 0

/-- The explicit respect value of a payload, across the field-name
variants the scoring ladder recognises (spec section 4.3, step 1). -/
def explicitRespect (attack : Attack) : ℚ :=
  match attack.result with
  | some (ResultField.dictWithRespect q) => q
  | _ =>
    match attack.respect_gain with
    | some r => r
    | none => attack.respect.getD 0

/-- The effective outcome string of a payload (spec section 4.3, step 2);
a nested respect dict counts as Success, a non-string result as none. -/
def effectiveOutcome (attack : Attack) : String :=
  match attack.result with
  | some (ResultField.dictWithRespect _) => "Success"
  | some (ResultField.str s) => s
  | some ResultField.dictOther => ""
  | none => ""

/-- The scoring ladder as the spec words it, amended at one point: the
explicit respect value is used when it is positive (the source tests
respect greater than zero, not nonzero). -/
def pointsFor_spec (attack : Attack) : ℚ :=
  if explicitRespect attack > 0 then explicitRespect attack
  else if effectiveOutcome attack ∈ successful_results then 1 else 0

/- ====================================================================
   Attackability test: is_attackable (src/main.py lines 385-392)
   ==================================================================== -/

/-- A member status dict as read by is_attackable: the state string is
indexed directly, the until timestamp is read with a default of 0. -/
structure MemberStatus where
  state : String
  until_ : Option Int
deriving DecidableEq, Repr

/-- Embedding of is_attackable (lines 385-392): Okay is attackable;
Hospital is attackable when release is at most 60 seconds away; every
other state is not. -/
def is_attackable (status : MemberStatus) (now : Int) : Bool :=
  if status.state = "Okay" then true
  else if status.state = "Hospital" then
    decide (status.until_.getD 0 - now ≤ 60)
  else false

/- ====================================================================
   Theorems for C1 and C10
   ==================================================================== -/

/-- C1 counterexample: the payload with respect_gain equal to -1 carries
an explicit nonzero respect value, yet calculate_attack_points returns 0
rather than that value, so the nonzero-means-verbatim reading fails. -/
theorem calculate_attack_points_nonzero_refuted :
    calculate_attack_points { respect_gain := some (-1), respect := none, result := none } = 0
    ∧ ((-1 : ℚ) ≠ 0)
    ∧ calculate_attack_points { respect_gain := some (-1), respect := none, result := none } ≠ -1 := by
  refine ⟨by decide, by decide, by decide⟩

/-- C1 amended: the scoring function is total and deterministic and uses
the explicit respect value exactly when that value is positive; otherwise
1.0 for a successful outcome and 0.0 otherwise; on the three example
payloads it returns 3.5, 1.0 and 0.0. -/
theorem calculate_attack_points_spec :
    (∀ a : Attack, calculate_attack_points a = pointsFor_spec a)
    ∧ calculate_attack_points { respect_gain := some (7/2), respect := none, result := none } = 7/2
    ∧ calculate_attack_points
        { respect_gain := none, respect := none, result := some (ResultField.str "Hospitalized") } = 1
    ∧ calculate_attack_points
        { respect_gain := none, respect := none, result := some (ResultField.str "Escape") } = 0 := by
  refine ⟨?_, by norm_num [calculate_attack_points], by decide, by decide⟩
  intro a
  rcases a with ⟨rg, rp, rs⟩
  rcases rs with _ | rf
  · rcases rg with _ | g
    · rcases rp with _ | p
      · decide
      · simp [calculate_attack_points, pointsFor_spec, explicitRespect, effectiveOutcome,
          successful_results]
    · simp [calculate_attack_points, pointsFor_spec, explicitRespect, effectiveOutcome,
        successful_results]
  · rcases rf with s | q | _
    · rcases rg with _ | g
      · rcases rp with _ | p
        · simp [calculate_attack_points, pointsFor_spec, explicitRespect, effectiveOutcome]
        · simp [calculate_attack_points, pointsFor_spec, explicitRespect, effectiveOutcome]
      · simp [calculate_attack_points, pointsFor_spec, explicitRespect, effectiveOutcome]
    · simp [calculate_attack_points, pointsFor_spec, explicitRespect, effectiveOutcome,
        successful_results]
    · rcases rg with _ | g
      · rcases rp with _ | p
        · simp [calculate_attack_points, pointsFor_spec, explicitRespect, effectiveOutcome,
            successful_results]
        · simp [calculate_attack_points, pointsFor_spec, explicitRespect, effectiveOutcome,
            successful_results]
      · simp [calculate_attack_points, pointsFor_spec, explicitRespect, effectiveOutcome,
          successful_results]

/-- C10: is_attackable is true exactly when the state is Okay, or the
state is Hospital and the release timestamp (default 0) is at most 60
seconds after the current time; every other state gives false. -/
theorem is_attackable_iff (s : MemberStatus) (now : Int) :
    is_attackable s now = true ↔
      (s.state = "Okay" ∨ (s.state = "Hospital" ∧ s.until_.getD 0 - now ≤ 60)) := by
  unfold is_attackable
  by_cases h1 : s.state = "Okay"
  · simp [h1]
  · by_cases h2 : s.state = "Hospital"
    · simp [h1, h2]
    · simp [h1, h2]

/- ====================================================================
   War payload model and get_opponent_faction (src/main.py lines 308-378)
   ==================================================================== -/

/-- One faction entry of a ranked-war payload, with the fields the source
reads: id, name, score and chain. -/
structure Faction where
  id : Int
  name : String
  score : ℚ
  chain : Int
deriving DecidableEq, Repr

/-- The factions field of a war payload, which the upstream API returns
either as a list of entries or as a mapping keyed by faction id. -/
inductive FactionsShape where
  | flist (fs : List Faction)
  | fmap (fs : List (Int × Faction))
deriving DecidableEq, Repr

/-- One ranked-war payload entry: id, start time, optional target score,
optional end time (0 meaning ongoing, absent read as 1) and the factions
field in either shape. -/
structure RankedWar where
  id : Int
  start : Int
  target : Option Int
  end_ : Option Int
  factions : FactionsShape
deriving DecidableEq, Repr

/-- The current_war_data dict built at src/main.py lines 356-367. -/
structure CurrentWarData where
  war_id : String
  opponent_id : Int
  opponent_name : String
  start_time : Int
  our_score : ℚ
  opponent_score : ℚ
  our_chain : Int
  opponent_chain : Int
  target_score : Int
  last_updated : Int
deriving DecidableEq, Repr

/-- An upstream rankedwars response: either a payload carrying a
rankedwars list, or anything without one (an in-band API error object or
malformed body). -/
inductive ApiResponse where
  | errorPayload
  | rankedwars (ws : List RankedWar)
deriving DecidableEq, Repr

/-- A Python exception escaping the embedded code; get_opponent_faction
raises AttributeError when it builds the snapshot with the tracked
faction missing (our_faction_data is None at line 361). -/
inductive PyError where
  | attributeError
deriving DecidableEq, Repr

/-- The faction partition loop for list-shaped factions (lines 331-338):
an entry whose id matches the tracked id lands in the first slot, every
other entry overwrites the second slot. -/
def find_factions_list (fid : Int) (fs : List Faction) :
    Option Faction × Option Faction :=
  fs.foldl
    (fun acc f => if f.id = fid then (some f, acc.2) else (acc.1, some f))
    (none, none)

/-- The faction partition loop for map-shaped factions (lines 339-347):
the tracked faction is recognised by its key or by its id field. -/
def find_factions_map (fid : Int) (fs : List (Int × Faction)) :
    Option Faction × Option Faction :=
  fs.foldl
    (fun acc kf =>
      if kf.1 = fid ∨ kf.2.id = fid then (some kf.2, acc.2) else (acc.1, some kf.2))
    (none, none)

/-- Partition of a factions field of either shape into the tracked slot
and the opponent slot. -/
def find_factions (fid : Int) : FactionsShape → Option Faction × Option Faction
  | FactionsShape.flist fs => find_factions_list fid fs
  | FactionsShape.fmap fs => find_factions_map fid fs

/-- The snapshot dict assembled at lines 356-367 from an active war and
its two resolved factions. -/
def mk_current_war_data (war : RankedWar) (our opp : Faction) (now : Int) :
    CurrentWarData :=
  { war_id := toString war.id
    opponent_id := opp.id
    opponent_name := opp.name
    start_time := war.start
    our_score := our.score
    opponent_score := opp.score
    our_chain := our.chain
    opponent_chain := opp.chain
    target_score := war.target.getD 6000
    last_updated := now }

/-- The war loop of get_opponent_faction (lines 322-370): take the first
entry whose end field is 0 and whose opponent slot is filled; building
the snapshot with an empty tracked slot raises AttributeError; otherwise
keep scanning. -/
def scan_wars (fid now : Int) :
    List RankedWar → Except PyError (Option (CurrentWarData × RankedWar))
  | [] => Except.ok none
  | w :: ws =>
    if w.end_.getD 1 = 0 then
      match find_factions fid w.factions with
      | (_, none) => scan_wars fid now ws
      | (none, some _) => Except.error PyError.attributeError
      | (some our, some opp) =>
        Except.ok (some (mk_current_war_data w our opp now, w))
    else scan_wars fid now ws

/-- Embedding of get_opponent_faction (lines 308-378): its result is the
new value of the global current_war_data together with the returned
triple of opponent id, war id and raw war entry; a response without a
nonempty rankedwars list, or one without a usable active war, clears the
held state and returns an empty triple. -/
def get_opponent_faction (fid : Int) (resp : ApiResponse) (now : Int) :
    Except PyError (Option CurrentWarData × Option (Int × String × RankedWar)) :=
  match resp with
  | ApiResponse.errorPayload => Except.ok (none, none)
  | ApiResponse.rankedwars ws =>
    if ws.isEmpty then Except.ok (none, none)
    else
      match scan_wars fid now ws with
      | Except.error e => Except.error e
      | Except.ok none => Except.ok (none, none)
      | Except.ok (some (cwd, w)) =>
        Except.ok (some cwd, some (cwd.opponent_id, cwd.war_id, w))

/-- One poll of the current-war state as the periodic tasks run it: the
broad except handler around check_targets and check_war_status leaves the
held snapshot untouched when get_opponent_faction raises, and otherwise
adopts whatever state the call left behind. -/
def poll_current_war (fid : Int) (resp : ApiResponse)
    (prior : Option CurrentWarData) (now : Int) : Option CurrentWarData :=
  match get_opponent_faction fid resp now with
  | Except.error _ => prior
  | Except.ok (st, _) => st

/- ====================================================================
   Claim registry reset inside check_targets (src/main.py lines 2909-2928)
   ==================================================================== -/

/-- The module state check_targets touches: the held snapshot, the
previous war id and the claimed-targets map (member id to claimer id,
in insertion order). -/
structure TargetsState where
  cwd : Option CurrentWarData
  previous_war_id : Option String
  claimed_targets : List (Int × Int)
deriving DecidableEq, Repr

/-- The state effect of one check_targets run (lines 2909-2928): an
exception leaves everything as it was; a poll without an opponent
returns early after get_opponent_faction has already stored its state;
an active war clears the claims exactly when its id differs from a
non-None previous id, then records the new id. -/
def check_targets_step (fid : Int) (resp : ApiResponse) (st : TargetsState)
    (now : Int) : TargetsState :=
  match get_opponent_faction fid resp now with
  | Except.error _ => st
  | Except.ok (newCwd, none) => { st with cwd := newCwd }
  | Except.ok (newCwd, some (_, warId, _)) =>
    let claims :=
      if some warId ≠ st.previous_war_id ∧ st.previous_war_id ≠ none then []
      else st.claimed_targets
    { cwd := newCwd, previous_war_id := some warId, claimed_targets := claims }

/-- A rankedwars response holding one active war whose factions are the
list [f, g]. -/
def active_two_faction_resp (w : RankedWar) (f g : Faction) : ApiResponse :=
  ApiResponse.rankedwars [{ w with factions := FactionsShape.flist [f, g] }]

/- ====================================================================
   Faction resolution of show_war_history (src/main.py lines 939-972)
   ==================================================================== -/

/-- Embedding of the faction-resolution step of show_war_history (lines
939-972): partition the factions, substitute a minimal placeholder for a
missing tracked faction (lines 960-968), and give up only when the
opponent is missing. -/
def resolve_history_factions (fid : Int) (fname : String)
    (factions : FactionsShape) : Option (Faction × Faction) :=
  let od := find_factions fid factions
  let our :=
    match od.1 with
    | some o => o
    | none => { id := fid, name := fname, score := 0, chain := 0 : Faction }
  match od.2 with
  | none => none
  | some opp => some (our, opp)

/- ====================================================================
   Sample values used by concrete witnesses and counterexamples
   ==================================================================== -/

/-- A sample tracked faction entry. -/
def fA : Faction := ⟨37537, "Ours", 100, 5⟩

/-- A sample opponent faction entry. -/
def fB : Faction := ⟨99, "Opp", 50, 2⟩

/-- A sample active ranked war (end time 0). -/
def warSample : RankedWar := ⟨123, 1700, some 6000, some 0, FactionsShape.flist []⟩

/-- A sample held current-war snapshot. -/
def cwdSample : CurrentWarData := ⟨"100", 99, "Opp", 1700, 100, 50, 5, 2, 6000, 41⟩

/-- A sample check_targets state with one claimed target during war 100. -/
def stSample : TargetsState :=
  { cwd := some cwdSample, previous_war_id := some "100", claimed_targets := [(1, 2)] }

/- ====================================================================
   Theorems for C2, C3, C4, C5
   ==================================================================== -/

/-- C2: for every well-formed active two-faction payload containing the
tracked faction, get_opponent_faction resolves exactly one tracked and
one opponent faction, and all four reshapings of the factions field
(either order, list or map keyed by id) produce a snapshot with
identical war id, opponent id and name, scores, chains, target score and
start time. -/
theorem normalize_two_faction_shapes (fid now : Int) (w : RankedWar)
    (f g : Faction) (hf : f.id = fid) (hg : g.id ≠ fid)
    (hw : w.end_.getD 1 = 0) :
    ∀ fs ∈ [FactionsShape.flist [f, g], FactionsShape.flist [g, f],
            FactionsShape.fmap [(f.id, f), (g.id, g)],
            FactionsShape.fmap [(g.id, g), (f.id, f)]],
      get_opponent_faction fid (ApiResponse.rankedwars [{ w with factions := fs }]) now
        = Except.ok
            (some { war_id := toString w.id, opponent_id := g.id,
                    opponent_name := g.name, start_time := w.start,
                    our_score := f.score, opponent_score := g.score,
                    our_chain := f.chain, opponent_chain := g.chain,
                    target_score := w.target.getD 6000, last_updated := now },
             some (g.id, toString w.id, { w with factions := fs })) := by
  intro fs hfs
  have hgood : ∀ sh : FactionsShape,
      find_factions fid sh = (some f, some g) →
      get_opponent_faction fid (ApiResponse.rankedwars [{ w with factions := sh }]) now
        = Except.ok
            (some { war_id := toString w.id, opponent_id := g.id,
                    opponent_name := g.name, start_time := w.start,
                    our_score := f.score, opponent_score := g.score,
                    our_chain := f.chain, opponent_chain := g.chain,
                    target_score := w.target.getD 6000, last_updated := now },
             some (g.id, toString w.id, { w with factions := sh })) := by
    intro sh hsh
    simp [get_opponent_faction, scan_wars, hw, hsh, mk_current_war_data]
  simp only [List.mem_cons, List.not_mem_nil, or_false] at hfs
  rcases hfs with rfl | rfl | rfl | rfl
  · exact hgood _ (by simp [find_factions, find_factions_list, hf, hg])
  · exact hgood _ (by simp [find_factions, find_factions_list, hf, hg])
  · exact hgood _ (by simp [find_factions, find_factions_map, hf, hg])
  · exact hgood _ (by simp [find_factions, find_factions_map, hf, hg])

/-- C2 witness: the sample two-faction war payload in map shape
normalizes to the expected concrete snapshot. -/
theorem normalize_two_faction_shapes_witness :
    fA.id = 37537 ∧ fB.id ≠ 37537 ∧ warSample.end_.getD 1 = 0
    ∧ get_opponent_faction 37537
        (ApiResponse.rankedwars
          [{ warSample with factions := FactionsShape.fmap [(fA.id, fA), (fB.id, fB)] }]) 42
      = Except.ok
          (some { war_id := toString warSample.id, opponent_id := fB.id,
                  opponent_name := fB.name, start_time := warSample.start,
                  our_score := fA.score, opponent_score := fB.score,
                  our_chain := fA.chain, opponent_chain := fB.chain,
                  target_score := warSample.target.getD 6000, last_updated := 42 },
           some (fB.id, toString warSample.id,
             { warSample with factions := FactionsShape.fmap [(fA.id, fA), (fB.id, fB)] })) := by
  refine ⟨rfl, by decide, rfl, ?_⟩
  exact normalize_two_faction_shapes 37537 42 warSample fA fB rfl (by decide) rfl
    (FactionsShape.fmap [(fA.id, fA), (fB.id, fB)]) (by simp)

/-- C3 counterexample: a two-faction payload in which the tracked
faction (id 37537) is absent does not fail; the history view resolves it
to a snapshot whose tracked side is the substituted placeholder faction,
refuting the claim that a placeholder is never produced. -/
theorem resolve_history_placeholder_counterexample :
    resolve_history_factions 37537 "Target Faction"
        (FactionsShape.flist [⟨11, "A", 5, 0⟩, ⟨12, "B", 7, 0⟩])
      = some (⟨37537, "Target Faction", 0, 0⟩, ⟨12, "B", 7, 0⟩)
    ∧ (11 : Int) ≠ 37537 ∧ (12 : Int) ≠ 37537 := by
  refine ⟨by decide, by decide, by decide⟩

/-- C3 amended: a payload holding only the tracked faction yields no
snapshot, but a payload in which the tracked faction is absent yields a
snapshot whose tracked side is a placeholder with the configured id and
name and zero score and chain; a well-formed two-faction payload
resolves to its two factions. -/
theorem resolve_history_factions_spec (fid : Int) (fname : String)
    (f g : Faction) (hf : f.id = fid) (hg : g.id ≠ fid) :
    resolve_history_factions fid fname (FactionsShape.flist [f]) = none
    ∧ resolve_history_factions fid fname (FactionsShape.flist [g])
        = some ({ id := fid, name := fname, score := 0, chain := 0 }, g)
    ∧ resolve_history_factions fid fname (FactionsShape.flist [f, g])
        = some (f, g) := by
  refine ⟨?_, ?_, ?_⟩
  · simp [resolve_history_factions, find_factions, find_factions_list, hf]
  · simp [resolve_history_factions, find_factions, find_factions_list, hg]
  · simp [resolve_history_factions, find_factions, find_factions_list, hf, hg]

/-- C3 amended witness: the concrete sample factions instantiate the
three resolution cases. -/
theorem resolve_history_factions_spec_witness :
    fA.id = 37537 ∧ fB.id ≠ 37537
    ∧ resolve_history_factions 37537 "Target Faction" (FactionsShape.flist [fA]) = none
    ∧ resolve_history_factions 37537 "Target Faction" (FactionsShape.flist [fB])
        = some ({ id := 37537, name := "Target Faction", score := 0, chain := 0 }, fB)
    ∧ resolve_history_factions 37537 "Target Faction" (FactionsShape.flist [fA, fB])
        = some (fA, fB) := by
  refine ⟨rfl, by decide, ?_⟩
  exact resolve_history_factions_spec 37537 "Target Faction" fA fB rfl (by decide)

/-- C4 counterexample: a poll whose upstream response is an in-band
error payload (no rankedwars list) does not keep the last-known-good
snapshot: the held state is cleared to none, i.e. the error is treated
as the war being over. -/
theorem poll_error_clears_state_counterexample :
    poll_current_war 37537 ApiResponse.errorPayload (some cwdSample) 42 = none
    ∧ (none : Option CurrentWarData) ≠ some cwdSample := by
  refine ⟨rfl, by decide⟩

/-- C4 amended: an in-band error payload is treated as no active war and
clears the held snapshot, while a payload that cannot be normalized
(active war whose tracked faction is absent) raises AttributeError and
leaves the held snapshot unchanged through the task-level exception
handler. -/
theorem poll_failure_behavior (fid now : Int) (prior : Option CurrentWarData)
    (w : RankedWar) (g1 g2 : Faction)
    (h1 : g1.id ≠ fid) (h2 : g2.id ≠ fid) (hw : w.end_.getD 1 = 0) :
    poll_current_war fid ApiResponse.errorPayload prior now = none
    ∧ get_opponent_faction fid (active_two_faction_resp w g1 g2) now
        = Except.error PyError.attributeError
    ∧ poll_current_war fid (active_two_faction_resp w g1 g2) prior now = prior := by
  have hraise : get_opponent_faction fid (active_two_faction_resp w g1 g2) now
      = Except.error PyError.attributeError := by
    simp [get_opponent_faction, active_two_faction_resp, scan_wars, hw,
      find_factions, find_factions_list, h1, h2]
  refine ⟨rfl, hraise, ?_⟩
  simp [poll_current_war, hraise]

/-- C4 amended witness: with two concrete non-tracked factions, the
error payload clears the sample snapshot and the unnormalizable payload
keeps it. -/
theorem poll_failure_behavior_witness :
    fB.id ≠ 37537 ∧ warSample.end_.getD 1 = 0
    ∧ poll_current_war 37537 ApiResponse.errorPayload (some cwdSample) 42 = none
    ∧ get_opponent_faction 37537 (active_two_faction_resp warSample fB fB) 42
        = Except.error PyError.attributeError
    ∧ poll_current_war 37537 (active_two_faction_resp warSample fB fB) (some cwdSample) 42
        = some cwdSample := by
  refine ⟨by decide, rfl, ?_⟩
  exact poll_failure_behavior 37537 42 (some cwdSample) warSample fB fB
    (by decide) (by decide) rfl

/-- C5 counterexample: a poll that observes the tracked war having ended
(no-war response, held snapshot cleared) leaves the claim registry
untouched, so the claims present at a war-to-no-war transition are not
removed, refuting the claim as stated. -/
theorem check_targets_claims_counterexample :
    (check_targets_step 37537 ApiResponse.errorPayload stSample 42).claimed_targets = [(1, 2)]
    ∧ (check_targets_step 37537 ApiResponse.errorPayload stSample 42).cwd = none
    ∧ stSample.previous_war_id = some "100"
    ∧ ([(1, 2)] : List (Int × Int)) ≠ [] := by
  refine ⟨by decide, by decide, by decide, by decide⟩

/-- C5 amended: the claim registry is cleared exactly when a poll first
observes an active war whose id differs from a non-None previous war id;
polling the same ongoing war never clears it, and a war-to-no-war
transition leaves the registry unchanged until the next distinct war is
seen. -/
theorem check_targets_claims_spec (fid now : Int) (st : TargetsState)
    (w : RankedWar) (f g : Faction)
    (hf : f.id = fid) (hg : g.id ≠ fid) (hw : w.end_.getD 1 = 0) :
    (check_targets_step fid (active_two_faction_resp w f g) st now).previous_war_id
        = some (toString w.id)
    ∧ (st.previous_war_id = some (toString w.id) →
        (check_targets_step fid (active_two_faction_resp w f g) st now).claimed_targets
          = st.claimed_targets)
    ∧ (st.previous_war_id ≠ none → st.previous_war_id ≠ some (toString w.id) →
        (check_targets_step fid (active_two_faction_resp w f g) st now).claimed_targets = [])
    ∧ (check_targets_step fid ApiResponse.errorPayload st now).claimed_targets
        = st.claimed_targets := by
  have hok : get_opponent_faction fid (active_two_faction_resp w f g) now
      = Except.ok
          (some (mk_current_war_data { w with factions := FactionsShape.flist [f, g] } f g now),
           some (g.id, toString w.id, { w with factions := FactionsShape.flist [f, g] })) := by
    simp [get_opponent_faction, active_two_faction_resp, scan_wars, hw,
      find_factions, find_factions_list, hf, hg, mk_current_war_data]
  refine ⟨?_, ?_, ?_, ?_⟩
  · simp [check_targets_step, hok]
  · intro hprev
    simp [check_targets_step, hok, hprev]
  · intro hne hdiff
    have : some (toString w.id) ≠ st.previous_war_id := fun h => hdiff h.symm
    simp [check_targets_step, hok, this, hne]
  · simp [check_targets_step, get_opponent_faction]

/-- C5 amended witness: starting from the sample state tracking war 100
with one claim, observing active war 123 clears the registry and records
the new war id. -/
theorem check_targets_claims_spec_witness :
    fA.id = 37537 ∧ fB.id ≠ 37537 ∧ warSample.end_.getD 1 = 0
    ∧ stSample.previous_war_id ≠ none
    ∧ stSample.previous_war_id ≠ some (toString warSample.id)
    ∧ (check_targets_step 37537 (active_two_faction_resp warSample fA fB) stSample 42).previous_war_id
        = some (toString warSample.id)
    ∧ (check_targets_step 37537 (active_two_faction_resp warSample fA fB) stSample 42).claimed_targets
        = [] := by
  have h := check_targets_claims_spec 37537 42 stSample warSample fA fB rfl (by decide) rfl
  exact ⟨rfl, by decide, rfl, by decide, by decide, h.1,
    h.2.2.1 (by decide) (by decide)⟩

/- ====================================================================
   Pagination (src/main.py lines 1195-1208 and 1926-1936)
   ==================================================================== -/

/-- The total-pages computation of both pagination sites: max of 1 and
the rounded-up quotient of the item count by the page size. -/
def total_pages_of (total page_size : ℕ) : ℕ :=
  max 1 ((total + page_size - 1) / page_size)

/-- The page clamp of both pagination sites: the requested page (a
possibly nonpositive integer) forced into the closed range from 1 to the
page count. -/
def clamp_page (page : Int) (total_pages : ℕ) : ℕ :=
  (max 1 (min page (total_pages : Int))).toNat

/-- Embedding of the shared pagination code (lines 1195-1208 and
1926-1936): compute the page count, clamp the requested page, and slice
the items from the start index up to the exclusive end index. -/
def paginate {α : Type} (items : List α) (page_size : ℕ) (page : Int) :
    List α × ℕ :=
  let total_pages := total_pages_of items.length page_size
  let p := clamp_page page total_pages
  let start := (p - 1) * page_size
  let stop := min (start + page_size) items.length
  ((items.drop start).take (stop - start), total_pages)

/-- The page count is the rounded-up quotient, at least 1: it is 1 on an
empty list, and for a nonempty list it is the unique k with
(k-1)*ps below the length and the length at most k*ps. -/
theorem total_pages_of_ceil (n ps : ℕ) (hps : 0 < ps) :
    (n = 0 → total_pages_of n ps = 1)
    ∧ (0 < n →
        (total_pages_of n ps - 1) * ps < n ∧ n ≤ total_pages_of n ps * ps) := by
  constructor
  · intro hn
    subst hn
    unfold total_pages_of
    have h0 : (0 + ps - 1) / ps = 0 := Nat.div_eq_of_lt (by omega)
    rw [h0]
    rfl
  · intro hn
    have hq : 1 ≤ (n + ps - 1) / ps := by
      rw [Nat.le_div_iff_mul_le hps]
      omega
    have hmax : total_pages_of n ps = (n + ps - 1) / ps := by
      unfold total_pages_of
      exact Nat.max_eq_right hq
    have hdm := Nat.div_add_mod (n + ps - 1) ps
    have hmod := Nat.mod_lt (n + ps - 1) hps
    have hmul : ps * 1 ≤ ps * ((n + ps - 1) / ps) :=
      Nat.mul_le_mul_left ps hq
    rw [hmax]
    constructor
    · rw [Nat.sub_mul, one_mul, Nat.mul_comm]
      omega
    · have : n + ps - 1 < ps * ((n + ps - 1) / ps) + ps := by omega
      have h2 : n ≤ ps * ((n + ps - 1) / ps) := by omega
      calc n ≤ ps * ((n + ps - 1) / ps) := h2
        _ = (n + ps - 1) / ps * ps := Nat.mul_comm _ _

/-- C7: with a positive page size, the page count is max(1, the
rounded-up quotient), the requested page is clamped into the range from
1 to the page count, and the returned slice is exactly the items from
position (page-1)*page_size up to min(page*page_size, n). -/
theorem paginate_spec {α : Type} (items : List α) (ps : ℕ) (page : Int)
    (hps : 0 < ps) :
    (items.length = 0 → (paginate items ps page).2 = 1)
    ∧ (0 < items.length →
        ((paginate items ps page).2 - 1) * ps < items.length
        ∧ items.length ≤ (paginate items ps page).2 * ps)
    ∧ 1 ≤ clamp_page page (paginate items ps page).2
    ∧ clamp_page page (paginate items ps page).2 ≤ (paginate items ps page).2
    ∧ (paginate items ps page).1
        = (items.take
            (min (clamp_page page (paginate items ps page).2 * ps) items.length)).drop
            ((clamp_page page (paginate items ps page).2 - 1) * ps) := by
  have hsnd : (paginate items ps page).2 = total_pages_of items.length ps := rfl
  have hceil := total_pages_of_ceil items.length ps hps
  have htp : 1 ≤ total_pages_of items.length ps := by
    unfold total_pages_of
    omega
  have hclamp1 : 1 ≤ clamp_page page (total_pages_of items.length ps) := by
    unfold clamp_page
    omega
  have hclamp2 : clamp_page page (total_pages_of items.length ps)
      ≤ total_pages_of items.length ps := by
    unfold clamp_page
    omega
  refine ⟨fun h => by rw [hsnd]; exact hceil.1 h,
    fun h => by rw [hsnd]; exact hceil.2 h,
    by rw [hsnd]; exact hclamp1,
    by rw [hsnd]; exact hclamp2, ?_⟩
  rw [hsnd]
  show (items.drop ((clamp_page page (total_pages_of items.length ps) - 1) * ps)).take
      (min ((clamp_page page (total_pages_of items.length ps) - 1) * ps + ps) items.length
        - (clamp_page page (total_pages_of items.length ps) - 1) * ps) = _
  have hp1 : (clamp_page page (total_pages_of items.length ps) - 1) * ps + ps
      = clamp_page page (total_pages_of items.length ps) * ps := by
    have hpred : clamp_page page (total_pages_of items.length ps) - 1 + 1
        = clamp_page page (total_pages_of items.length ps) := by omega
    have hstep : (clamp_page page (total_pages_of items.length ps) - 1) * ps + ps
        = (clamp_page page (total_pages_of items.length ps) - 1 + 1) * ps := by
      rw [Nat.add_mul, Nat.one_mul]
    rw [hstep, hpred]
  rw [hp1, List.drop_take]

/-- C7 witness: 25 items at page size 10 give 3 pages; page 3 holds the
last 5 items; page 99 clamps to page 3 and returns the same slice. -/
theorem paginate_spec_witness :
    0 < 10
    ∧ (paginate (List.range 25) 10 3).2 = 3
    ∧ (paginate (List.range 25) 10 3).1 = [20, 21, 22, 23, 24]
    ∧ clamp_page 99 (paginate (List.range 25) 10 99).2 = 3
    ∧ paginate (List.range 25) 10 99 = paginate (List.range 25) 10 3
    ∧ ((paginate (List.range 25) 10 3).2 - 1) * 10 < (List.range 25).length
    ∧ (List.range 25).length ≤ (paginate (List.range 25) 10 3).2 * 10 := by
  refine ⟨by decide, by decide, by decide, by decide, by decide, ?_⟩
  exact (paginate_spec (List.range 25) 10 3 (by decide)).2.1 (by decide)

/- ====================================================================
   Payout calculation: calculate_war_pay (src/main.py lines 2397-2500)
   ==================================================================== -/

/-- One contributor row as consumed by the pay calculator: display name
and attack count. -/
structure Contributor where
  name : String
  attacks : ℕ
deriving DecidableEq, Repr

/-- Stable insertion of a contributor into a list already sorted by
descending attack count: the new element goes after every earlier
element with at least as many attacks. -/
def insert_desc (c : Contributor) : List Contributor → List Contributor
  | [] => [c]
  | d :: ds =>
    if d.attacks < c.attacks then c :: d :: ds else d :: insert_desc c ds

/-- The stable descending sort by attack count applied at line 2484
(Python sorted with reverse=True is stable). -/
def sort_desc_by_attacks (l : List Contributor) : List Contributor :=
  l.foldl (fun acc c => insert_desc c acc) []

/-- The financial figures and itemized payouts computed by
calculate_war_pay. -/
structure PayoutPlan where
  shareholder_cut : ℚ
  amount_per_shareholder : ℚ
  total_after_cut : ℚ
  total_attacks : ℕ
  pay_per_hit : ℚ
  payout_details : List (String × ℕ × ℚ)
deriving DecidableEq, Repr

/-- Embedding of the arithmetic core of calculate_war_pay (lines
2397-2500): total the attacks, take the shareholder cut only when the
count is positive, divide the remainder per hit when any attacks exist,
and itemize each contributor with a nonzero attack count (in descending
attack order) at attacks times pay per hit. -/
def calculate_war_pay (contributors : List Contributor) (total_sale : ℚ)
    (shareholder_count : Int) (shareholder_percentage : ℚ) : PayoutPlan :=
  let total_attacks := (contributors.map Contributor.attacks).sum
  let cut3 : ℚ × ℚ × ℚ :=
    if 0 < shareholder_count then
      let stp := (shareholder_count : ℚ) * (shareholder_percentage / 100)
      let cut := total_sale * stp
      (cut, cut / (shareholder_count : ℚ), total_sale - cut)
    else (0, 0, total_sale)
  let pay_per_hit : ℚ :=
    if 0 < total_attacks then cut3.2.2 / (total_attacks : ℚ) else 0
  let details :=
    ((sort_desc_by_attacks contributors).filter (fun c => c.attacks ≠ 0)).map
      (fun c => (c.name, c.attacks, (c.attacks : ℚ) * pay_per_hit))
  ⟨cut3.1, cut3.2.1, cut3.2.2, total_attacks, pay_per_hit, details⟩

/-- Membership in a stable descending insertion is membership in the
inserted element or the old list. -/
theorem mem_insert_desc (c x : Contributor) :
    ∀ l : List Contributor, x ∈ insert_desc c l ↔ x = c ∨ x ∈ l := by
  intro l
  induction l with
  | nil => simp [insert_desc]
  | cons d ds ih =>
    by_cases h : d.attacks < c.attacks
    · simp [insert_desc, h]
    · simp [insert_desc, h, ih]
      tauto

/-- Membership is preserved by the stable descending sort. -/
theorem mem_sort_desc_by_attacks (l : List Contributor) (x : Contributor) :
    x ∈ sort_desc_by_attacks l ↔ x ∈ l := by
  have haux : ∀ (l acc : List Contributor),
      x ∈ l.foldl (fun a c => insert_desc c a) acc ↔ x ∈ acc ∨ x ∈ l := by
    intro l
    induction l with
    | nil => simp
    | cons c cs ih =>
      intro acc
      rw [List.foldl_cons, ih, mem_insert_desc]
      simp
      tauto
  rw [sort_desc_by_attacks, haux]
  simp

/-- C6: the shareholder cut is totalSale times count times pct over 100,
zero when the count is zero; the remainder is sale minus cut; the attack
total sums every contributor including zero-attack ones; pay per hit
divides the remainder by the attack total when positive and is zero
otherwise; each itemized row has a nonzero attack count and payout equal
to attacks times pay per hit; and every contributor with a nonzero
attack count is itemized. -/
theorem calculate_war_pay_spec (cs : List Contributor) (sale pct : ℚ)
    (count : Int) (P : PayoutPlan) (hc : 0 ≤ count)
    (hP : P = calculate_war_pay cs sale count pct) :
    P.shareholder_cut = (if count = 0 then 0 else sale * (count : ℚ) * (pct / 100))
    ∧ P.total_after_cut = sale - P.shareholder_cut
    ∧ P.total_attacks = (cs.map Contributor.attacks).sum
    ∧ P.pay_per_hit
        = (if 0 < P.total_attacks then P.total_after_cut / (P.total_attacks : ℚ) else 0)
    ∧ (∀ e ∈ P.payout_details, e.2.1 ≠ 0 ∧ e.2.2 = (e.2.1 : ℚ) * P.pay_per_hit)
    ∧ (∀ c ∈ cs, c.attacks ≠ 0 →
        (c.name, c.attacks, (c.attacks : ℚ) * P.pay_per_hit) ∈ P.payout_details) := by
  subst hP
  rcases Decidable.lt_or_eq_of_le hc with hpos | hzero
  · have hne : count ≠ 0 := by omega
    refine ⟨?_, ?_, rfl, rfl, ?_, ?_⟩
    · simp [calculate_war_pay, hpos, hne]
      ring
    · simp [calculate_war_pay, hpos]
    · intro e he
      simp only [calculate_war_pay, List.mem_map] at he
      obtain ⟨c, hc1, hc2⟩ := he
      have := (List.mem_filter.mp hc1).2
      subst hc2
      constructor
      · simpa using this
      · rfl
    · intro c hcmem hcnz
      simp only [calculate_war_pay, List.mem_map]
      refine ⟨c, ?_, rfl⟩
      exact List.mem_filter.mpr
        ⟨(mem_sort_desc_by_attacks cs c).mpr hcmem, by simpa using hcnz⟩
  · subst hzero
    refine ⟨?_, ?_, rfl, rfl, ?_, ?_⟩
    · simp [calculate_war_pay]
    · simp [calculate_war_pay]
    · intro e he
      simp only [calculate_war_pay, List.mem_map] at he
      obtain ⟨c, hc1, hc2⟩ := he
      have := (List.mem_filter.mp hc1).2
      subst hc2
      constructor
      · simpa using this
      · rfl
    · intro c hcmem hcnz
      simp only [calculate_war_pay, List.mem_map]
      refine ⟨c, ?_, rfl⟩
      exact List.mem_filter.mpr
        ⟨(mem_sort_desc_by_attacks cs c).mpr hcmem, by simpa using hcnz⟩

/-- C6 witness: with no shareholders, 1000 over contributors with 10 and
0 attacks pays 100 per hit and itemizes only the first contributor; with
2 shareholders at 5 percent the cut is 100 leaving 900. -/
theorem calculate_war_pay_spec_witness :
    (0 : Int) ≤ 0 ∧ (0 : Int) ≤ 2
    ∧ (calculate_war_pay [⟨"a", 10⟩, ⟨"b", 0⟩] 1000 0 4).total_attacks = 10
    ∧ (calculate_war_pay [⟨"a", 10⟩, ⟨"b", 0⟩] 1000 0 4).pay_per_hit = 100
    ∧ (calculate_war_pay [⟨"a", 10⟩, ⟨"b", 0⟩] 1000 0 4).payout_details = [("a", 10, 1000)]
    ∧ (calculate_war_pay [⟨"a", 10⟩, ⟨"b", 0⟩] 1000 2 5).shareholder_cut = 100
    ∧ (calculate_war_pay [⟨"a", 10⟩, ⟨"b", 0⟩] 1000 2 5).total_after_cut = 900 := by
  have h0 := calculate_war_pay_spec [⟨"a", 10⟩, ⟨"b", 0⟩] 1000 4 0 _ (by decide) rfl
  have h2 := calculate_war_pay_spec [⟨"a", 10⟩, ⟨"b", 0⟩] 1000 5 2 _ (by decide) rfl
  have hta : (calculate_war_pay [⟨"a", 10⟩, ⟨"b", 0⟩] 1000 0 4).total_attacks = 10 := by
    rw [h0.2.2.1]
    decide
  have hcut0 : (calculate_war_pay [⟨"a", 10⟩, ⟨"b", 0⟩] 1000 0 4).shareholder_cut = 0 := by
    rw [h0.1]
    norm_num
  have hafter0 : (calculate_war_pay [⟨"a", 10⟩, ⟨"b", 0⟩] 1000 0 4).total_after_cut = 1000 := by
    rw [h0.2.1, hcut0]
    norm_num
  have hpph : (calculate_war_pay [⟨"a", 10⟩, ⟨"b", 0⟩] 1000 0 4).pay_per_hit = 100 := by
    rw [h0.2.2.2.1, hta, hafter0]
    norm_num
  have hcut2 : (calculate_war_pay [⟨"a", 10⟩, ⟨"b", 0⟩] 1000 2 5).shareholder_cut = 100 := by
    rw [h2.1]
    norm_num
  have hafter2 : (calculate_war_pay [⟨"a", 10⟩, ⟨"b", 0⟩] 1000 2 5).total_after_cut = 900 := by
    rw [h2.2.1, hcut2]
    norm_num
  refine ⟨by decide, by decide, hta, hpph, ?_, hcut2, hafter2⟩
  show ((sort_desc_by_attacks [⟨"a", 10⟩, ⟨"b", 0⟩]).filter (fun c => c.attacks ≠ 0)).map
      (fun c => (c.name, c.attacks, (c.attacks : ℚ) * (calculate_war_pay [⟨"a", 10⟩, ⟨"b", 0⟩] 1000 0 4).pay_per_hit))
      = [("a", 10, 1000)]
  rw [hpph]
  simp [sort_desc_by_attacks, insert_desc]
  norm_num

/- ====================================================================
   Attack ledger: record_attack (src/main.py lines 158-188)
   ==================================================================== -/

/-- One recorded attack (lines 179-184). -/
structure AttackRecord where
  attacker_id : Int
  defender_id : Int
  points : ℚ
  timestamp : Int
deriving DecidableEq, Repr

/-- One war's ledger entry (lines 171-176): the attack list plus the
start time and faction id stamped when the entry is created. -/
structure WarLog where
  attacks : List AttackRecord
  start_time : Int
  faction_id : Int
deriving DecidableEq, Repr

/-- Update of the entry stored under a war id, leaving every other entry
alone (the in-place dict mutation of line 179; ledger keys are unique,
so updating the first binding is the dict semantics). -/
def update_log : List (String × WarLog) → String → (WarLog → WarLog) →
    List (String × WarLog)
  | [], _, _ => []
  | (k, v) :: rest, wid, f =>
    if k = wid then (k, f v) :: rest else (k, v) :: update_log rest wid f

/-- Embedding of record_attack (lines 158-188): fail when no war id is
tracked; otherwise create the ledger entry for the current war if absent
(stamping the snapshot start time and the configured faction id) and
append one record with the given attacker, defender, points and
timestamp. -/
def record_attack (fid : Int) (cwd : Option CurrentWarData)
    (logs : List (String × WarLog)) (attacker_id defender_id : Int)
    (points_gained : ℚ) (timestamp : Int) : Bool × List (String × WarLog) :=
  match cwd with
  | none => (false, logs)
  | some c =>
    if c.war_id = "" then (false, logs)
    else
      let logs1 :=
        if (logs.lookup c.war_id).isNone then
          logs ++ [(c.war_id, ⟨[], c.start_time, fid⟩)]
        else logs
      (true,
        update_log logs1 c.war_id
          (fun l =>
            { l with attacks :=
                l.attacks ++ [⟨attacker_id, defender_id, points_gained, timestamp⟩] }))

/-- Looking up the updated key returns the mapped value. -/
theorem lookup_update_log_self (wid : String) (f : WarLog → WarLog) :
    ∀ logs : List (String × WarLog),
      (update_log logs wid f).lookup wid = (logs.lookup wid).map f := by
  intro logs
  induction logs with
  | nil => rfl
  | cons kv rest ih =>
    obtain ⟨k, v⟩ := kv
    by_cases h : k = wid
    · subst h
      simp [update_log, List.lookup]
    · have hbeq : (wid == k) = false := by
        simp
        exact fun he => h he.symm
      simpa [update_log, h, List.lookup, hbeq] using ih

/-- Looking up any other key is unchanged by the update. -/
theorem lookup_update_log_other (wid wid2 : String) (f : WarLog → WarLog)
    (hne : wid2 ≠ wid) :
    ∀ logs : List (String × WarLog),
      (update_log logs wid f).lookup wid2 = logs.lookup wid2 := by
  intro logs
  induction logs with
  | nil => rfl
  | cons kv rest ih =>
    obtain ⟨k, v⟩ := kv
    by_cases h : k = wid
    · subst h
      have hbeq : (wid2 == k) = false := by
        simp
        exact hne
      simp [update_log, List.lookup, hbeq]
    · by_cases h2 : wid2 = k
      · subst h2
        simp [update_log, h, List.lookup]
      · have hbeq : (wid2 == k) = false := by
          simp
          exact h2
        simpa [update_log, h, List.lookup, hbeq] using ih

/-- Appending a fresh key binds it for lookup when absent before. -/
theorem lookup_append_single (k : String) (v : WarLog) :
    ∀ logs : List (String × WarLog),
      logs.lookup k = none → (logs ++ [(k, v)]).lookup k = some v := by
  intro logs
  induction logs with
  | nil =>
    intro _
    simp [List.lookup]
  | cons kv rest ih =>
    intro h
    obtain ⟨k0, v0⟩ := kv
    by_cases hk : k = k0
    · subst hk
      simp only [List.lookup, beq_self_eq_true] at h
      cases h
    · have hbeq : (k == k0) = false := by
        simp
        exact hk
      simp only [List.cons_append, List.lookup, hbeq] at h ⊢
      exact ih h

/-- Appending a binding does not affect other keys. -/
theorem lookup_append_single_other (k k2 : String) (v : WarLog) (hne : k2 ≠ k) :
    ∀ logs : List (String × WarLog),
      (logs ++ [(k, v)]).lookup k2 = logs.lookup k2 := by
  intro logs
  induction logs with
  | nil =>
    have hbeq : (k2 == k) = false := by
      simp
      exact hne
    simp [List.lookup, hbeq]
  | cons kv rest ih =>
    obtain ⟨k0, v0⟩ := kv
    by_cases h2 : k2 = k0
    · subst h2
      simp only [List.cons_append, List.lookup, beq_self_eq_true]
    · have hbeq : (k2 == k0) = false := by
        simp
        exact h2
      simp only [List.cons_append, List.lookup, hbeq]
      exact ih

/-- C8: recording fails with the ledger untouched exactly when no war is
tracked; otherwise it succeeds, creating the entry for the current war
id on first use with the snapshot start time and faction id as stamp,
appending exactly one record with the given fields, keeping the stamp of
a pre-existing entry, and leaving every other war's entry unchanged. -/
theorem record_attack_spec (fid : Int) (c : CurrentWarData)
    (logs : List (String × WarLog)) (a d : Int) (p : ℚ) (ts : Int)
    (hwid : c.war_id ≠ "") :
    record_attack fid none logs a d p ts = (false, logs)
    ∧ (record_attack fid (some c) logs a d p ts).1 = true
    ∧ (logs.lookup c.war_id = none →
        (record_attack fid (some c) logs a d p ts).2.lookup c.war_id
          = some ⟨[⟨a, d, p, ts⟩], c.start_time, fid⟩)
    ∧ (∀ e : WarLog, logs.lookup c.war_id = some e →
        (record_attack fid (some c) logs a d p ts).2.lookup c.war_id
          = some ⟨e.attacks ++ [⟨a, d, p, ts⟩], e.start_time, e.faction_id⟩)
    ∧ (∀ wid : String, wid ≠ c.war_id →
        (record_attack fid (some c) logs a d p ts).2.lookup wid = logs.lookup wid) := by
  refine ⟨rfl, by simp [record_attack, hwid], ?_, ?_, ?_⟩
  · intro habs
    simp only [record_attack, if_neg hwid, habs, Option.isNone_none, if_true]
    rw [lookup_update_log_self,
      lookup_append_single c.war_id ⟨[], c.start_time, fid⟩ logs habs]
    rfl
  · intro e hsome
    have hnn : (logs.lookup c.war_id).isNone = false := by
      rw [hsome]
      rfl
    simp only [record_attack, if_neg hwid, hnn, Bool.false_eq_true, if_false]
    rw [lookup_update_log_self, hsome]
    rfl
  · intro wid hne
    by_cases habs : (logs.lookup c.war_id).isNone = true
    · simp only [record_attack, if_neg hwid, habs, if_true]
      rw [lookup_update_log_other _ _ _ hne,
        lookup_append_single_other _ _ _ hne]
    · rw [Bool.not_eq_true] at habs
      simp only [record_attack, if_neg hwid, habs, Bool.false_eq_true, if_false]
      rw [lookup_update_log_other _ _ _ hne]

/-- C8 witness: recording an attack during the sample war creates the
ledger entry for war 100 stamped with the snapshot start time and
faction id and holding exactly the one record. -/
theorem record_attack_spec_witness :
    cwdSample.war_id ≠ ""
    ∧ record_attack 37537 none [] 1 2 (5 : ℚ) 1234 = (false, [])
    ∧ (record_attack 37537 (some cwdSample) [] 1 2 (5 : ℚ) 1234).1 = true
    ∧ (record_attack 37537 (some cwdSample) [] 1 2 (5 : ℚ) 1234).2.lookup cwdSample.war_id
        = some ⟨[⟨1, 2, (5 : ℚ), 1234⟩], cwdSample.start_time, 37537⟩ := by
  have h := record_attack_spec 37537 cwdSample [] 1 2 (5 : ℚ) 1234 (by decide)
  exact ⟨by decide, h.1, h.2.1, h.2.2.1 rfl⟩

/- ====================================================================
   Notification dispatcher: notify_users (src/main.py lines 243-266)
   ==================================================================== -/

/-- Per-user notification preferences (lines 233-238): one opt-in flag
per notification type and a single shared last-notified timestamp. -/
structure UserPrefs where
  notify_targets : Bool
  notify_war : Bool
  notify_chain : Bool
  last_notified : Int
deriving DecidableEq, Repr

/-- The notification types dispatched by the bot. -/
inductive NotifyType where
  | targets
  | war
  | chain
deriving DecidableEq, Repr

/-- The preference flag selected by the computed key notify_ plus the
type name (line 246). -/
def pref_for (p : UserPrefs) : NotifyType → Bool
  | NotifyType.targets => p.notify_targets
  | NotifyType.war => p.notify_war
  | NotifyType.chain => p.notify_chain

/-- Embedding of notify_users (lines 243-266): walk the preference
table; a user opted into the type whose last notification is at least
300 seconds old is sent a direct message; on a successful send (sendOk)
the last-notified timestamp becomes the current time, on a failed send
nothing changes.  Returns the updated table and the users notified. -/
def notify_users (t : NotifyType) (now : Int) (sendOk : Int → Bool) :
    List (Int × UserPrefs) → List (Int × UserPrefs) × List Int
  | [] => ([], [])
  | (uid, p) :: rest =>
    let r := notify_users t now sendOk rest
    if pref_for p t = true ∧ 300 ≤ now - p.last_notified then
      if sendOk uid then
        ((uid, { p with last_notified := now }) :: r.1, uid :: r.2)
      else ((uid, p) :: r.1, r.2)
    else ((uid, p) :: r.1, r.2)

/-- The updated preference table is the pointwise image of the input:
exactly the successfully notified rows get their timestamp set to now. -/
theorem notify_users_fst (t : NotifyType) (now : Int) (sendOk : Int → Bool) :
    ∀ prefs : List (Int × UserPrefs),
      (notify_users t now sendOk prefs).1
        = prefs.map (fun up =>
            if pref_for up.2 t = true ∧ 300 ≤ now - up.2.last_notified
                ∧ sendOk up.1 = true
            then (up.1, { up.2 with last_notified := now }) else up) := by
  intro prefs
  induction prefs with
  | nil => rfl
  | cons up rest ih =>
    obtain ⟨uid, p⟩ := up
    by_cases hgate : pref_for p t = true ∧ 300 ≤ now - p.last_notified
    · by_cases hsend : sendOk uid = true
      · simp [notify_users, hgate, hsend, ih]
      · have hno : ¬(pref_for p t = true ∧ 300 ≤ now - p.last_notified
            ∧ sendOk uid = true) := by tauto
        simp [notify_users, hgate, hsend, hno, ih]
    · have hno : ¬(pref_for p t = true ∧ 300 ≤ now - p.last_notified
          ∧ sendOk uid = true) := by tauto
      simp [notify_users, hgate, hno, ih]

/-- A user appears in the notified list exactly when their row passes
the opt-in and quiet-period gates and the send succeeds. -/
theorem notify_users_sent (t : NotifyType) (now : Int) (sendOk : Int → Bool) :
    ∀ (prefs : List (Int × UserPrefs)) (uid : Int),
      uid ∈ (notify_users t now sendOk prefs).2
        ↔ ∃ p : UserPrefs, (uid, p) ∈ prefs ∧ pref_for p t = true
            ∧ 300 ≤ now - p.last_notified ∧ sendOk uid = true := by
  intro prefs
  induction prefs with
  | nil => simp [notify_users]
  | cons up rest ih =>
    obtain ⟨u0, p0⟩ := up
    intro uid
    by_cases hgate : pref_for p0 t = true ∧ 300 ≤ now - p0.last_notified
    · by_cases hsend : sendOk u0 = true
      · have hred : (notify_users t now sendOk ((u0, p0) :: rest)).2
            = u0 :: (notify_users t now sendOk rest).2 := by
          simp only [notify_users, if_pos hgate, if_pos hsend]
        rw [hred]
        constructor
        · intro hm
          rcases List.mem_cons.mp hm with rfl | hm2
          · exact ⟨p0, List.mem_cons_self _ _, hgate.1, hgate.2, hsend⟩
          · obtain ⟨p, hp, h1, h2, h3⟩ := (ih uid).mp hm2
            exact ⟨p, List.mem_cons_of_mem _ hp, h1, h2, h3⟩
        · rintro ⟨p, hp, h1, h2, h3⟩
          rcases List.mem_cons.mp hp with hp0 | hp0
          · rw [Prod.mk.injEq] at hp0
            rw [hp0.1]
            exact List.mem_cons_self _ _
          · exact List.mem_cons_of_mem _ ((ih uid).mpr ⟨p, hp0, h1, h2, h3⟩)
      · have hred : (notify_users t now sendOk ((u0, p0) :: rest)).2
            = (notify_users t now sendOk rest).2 := by
          simp only [notify_users, if_pos hgate, if_neg hsend]
        rw [hred, ih]
        constructor
        · rintro ⟨p, hp, h1, h2, h3⟩
          exact ⟨p, List.mem_cons_of_mem _ hp, h1, h2, h3⟩
        · rintro ⟨p, hp, h1, h2, h3⟩
          rcases List.mem_cons.mp hp with hp0 | hp0
          · rw [Prod.mk.injEq] at hp0
            rw [hp0.1] at h3
            exact absurd h3 hsend
          · exact ⟨p, hp0, h1, h2, h3⟩
    · have hred : (notify_users t now sendOk ((u0, p0) :: rest)).2
          = (notify_users t now sendOk rest).2 := by
        simp only [notify_users, if_neg hgate]
      rw [hred, ih]
      constructor
      · rintro ⟨p, hp, h1, h2, h3⟩
        exact ⟨p, List.mem_cons_of_mem _ hp, h1, h2, h3⟩
      · rintro ⟨p, hp, h1, h2, h3⟩
        rcases List.mem_cons.mp hp with hp0 | hp0
        · rw [Prod.mk.injEq] at hp0
          rw [hp0.2] at h1 h2
          exact absurd ⟨h1, h2⟩ hgate
        · exact ⟨p, hp0, h1, h2, h3⟩

/-- Two bindings of the same key in a table with distinct keys carry the
same value. -/
theorem nodup_key_unique {β : Type} :
    ∀ (l : List (Int × β)), (l.map Prod.fst).Nodup →
      ∀ (uid : Int) (p q : β), (uid, p) ∈ l → (uid, q) ∈ l → p = q := by
  intro l
  induction l with
  | nil =>
    intro _ uid p q hp
    cases hp
  | cons kv rest ih =>
    intro hnd uid p q hp hq
    obtain ⟨k0, v0⟩ := kv
    have hnd1 : ¬ k0 ∈ rest.map Prod.fst := (List.nodup_cons.mp hnd).1
    have hnd2 : (rest.map Prod.fst).Nodup := (List.nodup_cons.mp hnd).2
    rcases List.mem_cons.mp hp with hp0 | hp0 <;>
      rcases List.mem_cons.mp hq with hq0 | hq0
    · rw [Prod.mk.injEq] at hp0 hq0
      rw [hp0.2, hq0.2]
    · rw [Prod.mk.injEq] at hp0
      have : k0 ∈ rest.map Prod.fst := by
        rw [← hp0.1]
        exact List.mem_map_of_mem Prod.fst hq0
      exact absurd this hnd1
    · rw [Prod.mk.injEq] at hq0
      have : k0 ∈ rest.map Prod.fst := by
        rw [← hq0.1]
        exact List.mem_map_of_mem Prod.fst hp0
      exact absurd this hnd1
    · exact ih hnd2 uid p q hp0 hq0

/-- C9: across any two successive dispatches (of any types), a user who
is sent a message in each was sent them at least 300 seconds apart; a
message is sent only to a user whose gate passed at the first dispatch,
and that user's row in the updated table carries the first send time as
its last-notified stamp. -/
theorem notify_users_min_gap (t1 t2 : NotifyType) (time1 time2 : Int)
    (s1 s2 : Int → Bool) (prefs : List (Int × UserPrefs)) (uid : Int)
    (hnodup : (prefs.map Prod.fst).Nodup)
    (h1 : uid ∈ (notify_users t1 time1 s1 prefs).2)
    (h2 : uid ∈ (notify_users t2 time2 s2 (notify_users t1 time1 s1 prefs).1).2) :
    300 ≤ time2 - time1
    ∧ ∃ p : UserPrefs, (uid, p) ∈ prefs ∧ pref_for p t1 = true
        ∧ 300 ≤ time1 - p.last_notified
        ∧ (uid, { p with last_notified := time1 })
            ∈ (notify_users t1 time1 s1 prefs).1 := by
  obtain ⟨p1, hp1, hg1, hq1, hs1⟩ := (notify_users_sent t1 time1 s1 prefs uid).mp h1
  have hmem1 : (uid, { p1 with last_notified := time1 })
      ∈ (notify_users t1 time1 s1 prefs).1 := by
    rw [notify_users_fst]
    have himg := List.mem_map_of_mem (fun up : Int × UserPrefs =>
      if pref_for up.2 t1 = true ∧ 300 ≤ time1 - up.2.last_notified
          ∧ s1 up.1 = true
      then (up.1, { up.2 with last_notified := time1 }) else up) hp1
    simpa [hg1, hq1, hs1] using himg
  obtain ⟨p2, hp2, hg2, hq2, hs2⟩ :=
    (notify_users_sent t2 time2 s2 (notify_users t1 time1 s1 prefs).1 uid).mp h2
  have hkeys : ((notify_users t1 time1 s1 prefs).1.map Prod.fst).Nodup := by
    rw [notify_users_fst]
    have : ((prefs.map (fun up : Int × UserPrefs =>
        if pref_for up.2 t1 = true ∧ 300 ≤ time1 - up.2.last_notified
            ∧ s1 up.1 = true
        then (up.1, { up.2 with last_notified := time1 }) else up)).map Prod.fst)
        = prefs.map Prod.fst := by
      rw [List.map_map]
      apply List.map_congr_left
      intro up _
      by_cases h : pref_for up.2 t1 = true ∧ 300 ≤ time1 - up.2.last_notified
          ∧ s1 up.1 = true
      · simp [h]
      · simp [h]
    rw [this]
    exact hnodup
  have hpeq : p2 = { p1 with last_notified := time1 } :=
    nodup_key_unique _ hkeys uid p2 { p1 with last_notified := time1 } hp2 hmem1
  have hlast : p2.last_notified = time1 := by
    rw [hpeq]
  constructor
  · rw [hlast] at hq2
    exact hq2
  · exact ⟨p1, hp1, hg1, hq1, hmem1⟩

/-- C9 witness: a user last notified at time 100 is sent a message at
time 400 and again at time 700, exactly 300 seconds later. -/
theorem notify_users_min_gap_witness :
    (([(7, ⟨true, false, false, 100⟩)] : List (Int × UserPrefs)).map Prod.fst).Nodup
    ∧ 7 ∈ (notify_users NotifyType.targets 400 (fun _ => true)
        [(7, ⟨true, false, false, 100⟩)]).2
    ∧ 7 ∈ (notify_users NotifyType.targets 700 (fun _ => true)
        (notify_users NotifyType.targets 400 (fun _ => true)
          [(7, ⟨true, false, false, 100⟩)]).1).2
    ∧ (300 : Int) ≤ 700 - 400 := by
  refine ⟨by decide, by decide, by decide, ?_⟩
  exact (notify_users_min_gap NotifyType.targets NotifyType.targets 400 700
    (fun _ => true) (fun _ => true) [(7, ⟨true, false, false, 100⟩)] 7
    (by decide) (by decide) (by decide)).1

end WarBot
